import Mathlib

/-!
# Verification of the 2023-election-insights collection pipeline

Shallow embedding of `src/download_tweets.py` (the `DownloadTweets` collector)
and `src/modules/twitter.py` (the `TwitterDataCleaner` normalizer).

Modeling choices:
* Timestamps are natural numbers counting minutes since a fixed epoch; a
  calendar date is a whole number of days since the same epoch, so the
  `pandas` `.dt.date` cast is division by `1440`.
* A `pandas` `DataFrame` is a list of rows; each row is an ordered
  association list from column name to cell value.
* Python exceptions are the explicit error type `DLError`:
  the `tweepy` / network failures raised inside the fetch capability become
  `DLError.fetchError`, the `KeyError` raised by the `users[x]` dictionary
  lookup in `extract_user_data` becomes `DLError.keyError`, and the pandas
  `ValueError("No objects to concatenate")` raised by `pd.concat` on an
  empty list becomes `DLError.emptyConcat`.
* The external fetch capability (`get_tweets` / `tweepy.Client`) is an
  opaque function parameter producing a `RawResponse` or failing.
-/

namespace ElectionInsights

/-- Cell values of a modeled DataFrame.  `ts` is a full timestamp in minutes
since the epoch, `date` a calendar date in days since the epoch. -/
inductive Val where
  | str (s : String)
  | nat (n : Nat)
  | ts (t : Nat)
  | date (d : Nat)
  | bool (b : Bool)
  | null
deriving DecidableEq

/-- A DataFrame row: ordered association list column-name ↦ value. -/
abbrev Row := List (String × Val)

/-- A DataFrame: ordered list of rows. -/
abbrev DataFrame := List Row

/-- `timedelta(days=1)` from `DownloadTweets.generate_dates`, in minutes. -/
def oneDay : Nat := 1440

/-- Loop body of `DownloadTweets.generate_dates`:
`while date < end_date: next = date + delta; append (date, next); date = next`.
The loop is driven by fuel; with `0 < delta`, fuel `end_date - date` is
enough for the fuel never to run out (Python's nontermination at
`delta = 0` is modeled by fuel exhaustion). -/
def generateDatesGo (delta endDate : Nat) : Nat → Nat → List (Nat × Nat)
  | _, 0 => []
  | date, fuel + 1 =>
    if date < endDate then
      (date, date + delta) :: generateDatesGo delta endDate (date + delta) fuel
    else []

/-- `DownloadTweets.generate_dates`, parametrized by the window size `delta`
as in the spec (the source fixes `delta = timedelta(days=1)`, i.e.
`oneDay`, which is how `download_tweets` below invokes it). -/
def generate_dates (delta startDate endDate : Nat) : List (Nat × Nat) :=
  generateDatesGo delta endDate startDate (endDate - startDate)

theorem generateDatesGo_nil_of_ge (delta endDate date fuel : Nat)
    (h : endDate ≤ date) : generateDatesGo delta endDate date fuel = [] := by
  cases fuel with
  | zero => rfl
  | succ f => simp [generateDatesGo, Nat.not_lt_of_le h]

theorem generateDatesGo_head_fst (delta endDate : Nat) :
    ∀ fuel date w, (generateDatesGo delta endDate date fuel).head? = some w →
      w.1 = date ∧ w.2 = date + delta := by
  intro fuel date w h
  cases fuel with
  | zero => simp [generateDatesGo] at h
  | succ f =>
    by_cases hd : date < endDate
    · simp [generateDatesGo, hd] at h
      simp [← h]
    · simp [generateDatesGo, hd] at h

theorem generateDatesGo_chain (delta endDate : Nat) :
    ∀ fuel date,
      List.Chain' (fun a b => a.2 = b.1) (generateDatesGo delta endDate date fuel) := by
  intro fuel
  induction fuel with
  | zero => intro date; simp [generateDatesGo]
  | succ f ih =>
    intro date
    by_cases hd : date < endDate
    · simp only [generateDatesGo, if_pos hd]
      rw [List.chain'_cons']
      refine ⟨?_, ih (date + delta)⟩
      intro b hb
      have := generateDatesGo_head_fst delta endDate f (date + delta) b hb
      omega
    · simp [generateDatesGo, hd]

theorem generateDatesGo_mem (delta endDate : Nat) :
    ∀ fuel date w, w ∈ generateDatesGo delta endDate date fuel →
      date ≤ w.1 ∧ w.2 = w.1 + delta ∧ w.1 < endDate := by
  intro fuel
  induction fuel with
  | zero => intro date w h; simp [generateDatesGo] at h
  | succ f ih =>
    intro date w h
    by_cases hd : date < endDate
    · simp only [generateDatesGo, if_pos hd, List.mem_cons] at h
      rcases h with h | h
      · simp [h]; omega
      · have := ih (date + delta) w h
        omega
    · simp [generateDatesGo, hd] at h

theorem generateDatesGo_pairwise (delta endDate : Nat) :
    ∀ fuel date,
      List.Pairwise (fun a b => a.2 ≤ b.1) (generateDatesGo delta endDate date fuel) := by
  intro fuel
  induction fuel with
  | zero => intro date; simp [generateDatesGo]
  | succ f ih =>
    intro date
    by_cases hd : date < endDate
    · simp only [generateDatesGo, if_pos hd]
      rw [List.pairwise_cons]
      refine ⟨?_, ih (date + delta)⟩
      intro w hw
      have := generateDatesGo_mem delta endDate f (date + delta) w hw
      omega
    · simp [generateDatesGo, hd]

theorem getLast?_cons_ne_nil {α : Type} (a : α) {l : List α} (h : l ≠ []) :
    (a :: l).getLast? = l.getLast? := by
  cases l with
  | nil => exact absurd rfl h
  | cons x xs => exact List.getLast?_cons_cons

theorem generateDatesGo_getLast (delta endDate : Nat) (hdelta : 0 < delta) :
    ∀ fuel date, date < endDate → endDate - date ≤ fuel →
      ∃ k, (generateDatesGo delta endDate date fuel).getLast?
            = some (date + k * delta, date + (k + 1) * delta) ∧
        endDate ≤ date + (k + 1) * delta ∧ date + k * delta < endDate := by
  intro fuel
  induction fuel with
  | zero => intro date h hf; omega
  | succ f ih =>
    intro date h hf
    simp only [generateDatesGo, if_pos h]
    by_cases hd : date + delta < endDate
    · obtain ⟨k, hk, hub, hlb⟩ := ih (date + delta) hd (by omega)
      have e1 : (k + 1) * delta = k * delta + delta := Nat.succ_mul k delta
      have e2 : (k + 1 + 1) * delta = (k + 1) * delta + delta := Nat.succ_mul (k + 1) delta
      have hne : generateDatesGo delta endDate (date + delta) f ≠ [] := by
        intro hnil
        rw [hnil] at hk
        simp at hk
      refine ⟨k + 1, ?_, by omega, by omega⟩
      rw [getLast?_cons_ne_nil _ hne, hk]
      have h1 : date + delta + k * delta = date + (k + 1) * delta := by omega
      have h2 : date + delta + (k + 1) * delta = date + (k + 1 + 1) * delta := by omega
      rw [h1, h2]
    · have hnil : generateDatesGo delta endDate (date + delta) f = [] :=
        generateDatesGo_nil_of_ge _ _ _ _ (by omega)
      rw [hnil]
      refine ⟨0, by simp, by simpa using by omega, by simpa using h⟩

theorem generate_dates_head (delta s e : Nat) (hse : s < e) :
    (generate_dates delta s e).head? = some (s, s + delta) := by
  unfold generate_dates
  obtain ⟨f, hf⟩ : ∃ f, e - s = f + 1 := ⟨e - s - 1, by omega⟩
  rw [hf]
  simp [generateDatesGo, hse]

/-- C1: for every `global_start < global_end` and `window_size > 0`,
`generate_dates` returns an ordered sequence of windows that is contiguous
(each window's end equals the next window's start), non-overlapping, whose
first window starts at `global_start`, and whose final window's end is the
first boundary `≥ global_end` reached by repeatedly adding `window_size`
to `global_start` (exactly `global_end` when the range divides evenly). -/
theorem generate_dates_windows (delta s e : Nat) (hd : 0 < delta) (hse : s < e) :
    (generate_dates delta s e).head? = some (s, s + delta) ∧
    List.Chain' (fun a b => a.2 = b.1) (generate_dates delta s e) ∧
    List.Pairwise (fun a b => a.2 ≤ b.1) (generate_dates delta s e) ∧
    ∃ k, (generate_dates delta s e).getLast? = some (s + k * delta, s + (k + 1) * delta) ∧
      e ≤ s + (k + 1) * delta ∧
      (∀ m, e ≤ s + m * delta → s + (k + 1) * delta ≤ s + m * delta) ∧
      (delta ∣ e - s → s + (k + 1) * delta = e) := by
  refine ⟨generate_dates_head delta s e hse,
    generateDatesGo_chain delta e (e - s) s,
    generateDatesGo_pairwise delta e (e - s) s, ?_⟩
  obtain ⟨k, hk, hub, hlb⟩ :=
    generateDatesGo_getLast delta e hd (e - s) s hse (Nat.le_refl _)
  have hmin : ∀ m, e ≤ s + m * delta → s + (k + 1) * delta ≤ s + m * delta := by
    intro m hm
    have hkm : k + 1 ≤ m := by
      by_contra hnot
      push_neg at hnot
      have hmk : m * delta ≤ k * delta := Nat.mul_le_mul_right delta (by omega)
      omega
    have hstep : (k + 1) * delta ≤ m * delta := Nat.mul_le_mul_right delta hkm
    omega
  refine ⟨k, hk, hub, hmin, ?_⟩
  rintro ⟨m, hm⟩
  have hsm : s + m * delta = e := by
    have : delta * m = m * delta := Nat.mul_comm delta m
    omega
  have hle := hmin m (by omega)
  omega

theorem generate_dates_windows_witness :
    (generate_dates 2 0 7).head? = some (0, 0 + 2) ∧
    List.Chain' (fun a b => a.2 = b.1) (generate_dates 2 0 7) ∧
    List.Pairwise (fun a b => a.2 ≤ b.1) (generate_dates 2 0 7) ∧
    ∃ k, (generate_dates 2 0 7).getLast? = some (0 + k * 2, 0 + (k + 1) * 2) ∧
      7 ≤ 0 + (k + 1) * 2 ∧
      (∀ m, 7 ≤ 0 + m * 2 → 0 + (k + 1) * 2 ≤ 0 + m * 2) ∧
      (2 ∣ 7 - 0 → 0 + (k + 1) * 2 = 7) :=
  generate_dates_windows 2 0 7 (by decide) (by decide)

/-- C4 counterexample: with `global_start = 0`, `global_end = 3`,
`window_size = 2` (not an exact multiple), the final window `generate_dates`
emits is `(2, 4)`, whose end `4` EXCEEDS `global_end = 3`, contradicting the
claim that the final partial window's end does not exceed `global_end`. -/
theorem generate_dates_no_partial_cex :
    (0 : Nat) < 2 ∧ (0 : Nat) < 3 ∧ ¬ (2 ∣ (3 - 0)) ∧
    (generate_dates 2 0 3).getLast? = some (2, 4) ∧ ¬ ((2, 4).2 ≤ 3) := by decide

/-- C4 amended: when `(global_end - global_start)` is not an exact multiple of
`window_size`, `generate_dates` emits a final FULL-SIZE window (its length is
exactly `window_size`, not a clamped partial window) whose end strictly
exceeds `global_end`. -/
theorem generate_dates_overshoot (delta s e : Nat) (hd : 0 < delta) (hse : s < e)
    (hnd : ¬ delta ∣ (e - s)) :
    ∃ w, (generate_dates delta s e).getLast? = some w ∧ e < w.2 ∧ w.2 = w.1 + delta := by
  obtain ⟨k, hk, hub, hlb⟩ :=
    generateDatesGo_getLast delta e hd (e - s) s hse (Nat.le_refl _)
  refine ⟨(s + k * delta, s + (k + 1) * delta), hk, ?_, ?_⟩
  · rcases Nat.lt_or_ge e (s + (k + 1) * delta) with h | h
    · exact h
    · exfalso
      apply hnd
      refine ⟨k + 1, ?_⟩
      have : delta * (k + 1) = (k + 1) * delta := Nat.mul_comm delta (k + 1)
      omega
  · have : (k + 1) * delta = k * delta + delta := Nat.succ_mul k delta
    omega

theorem generate_dates_overshoot_witness :
    ∃ w, (generate_dates 2 0 3).getLast? = some w ∧ 3 < w.2 ∧ w.2 = w.1 + 2 :=
  generate_dates_overshoot 2 0 3 (by decide) (by decide) (by decide)

/-- A tweet record as requested by `get_tweets`'s `tweet_fields`, with the
nested `public_metrics` already carried as its counter fields (they are
flattened by `extract_tweet_data`). -/
structure Tweet where
  id : Nat
  author_id : Nat
  created_at : Nat
  text : String
  possibly_sensitive : Bool
  retweet_count : Nat
  reply_count : Nat
  like_count : Nat
  quote_count : Nat
  impression_count : Nat
  lang : String
deriving DecidableEq

/-- A user record as requested by `get_tweets`'s `user_fields`, with the
nested `public_metrics` carried as its counter fields. -/
structure User where
  id : Nat
  username : String
  name : String
  location : String
  created_at : Nat
  description : String
  profile_image_url : String
  verified : Bool
  followers_count : Nat
  following_count : Nat
  tweet_count : Nat
  listed_count : Nat
deriving DecidableEq

/-- The paginated API response: primary tweet records (`self.tweets.data`)
plus the includes set of referenced users (`self.tweets.includes['users']`). -/
structure RawResponse where
  data : List Tweet
  includes_users : List User
deriving DecidableEq

/-- Python exceptions of the pipeline, made explicit:
* `fetchError` — an opaque upstream failure raised inside the fetch
  capability (network / auth / rate limit);
* `keyError` — the `KeyError` raised by the `users[x]` dictionary lookup in
  `TwitterDataCleaner.extract_user_data` (the spec's `MissingAuthorError`);
* `emptyConcat` — the `ValueError("No objects to concatenate")` raised by
  `pd.concat` on an empty list (the spec's `ConfigError` surface: it fires
  exactly when the window list or the candidate list is empty). -/
inductive DLError where
  | fetchError (msg : String)
  | keyError (key : Val)
  | emptyConcat
deriving DecidableEq

/-- One flattened row of `TwitterDataCleaner.extract_tweet_data`: the tweet's
plain fields plus the popped-and-merged `public_metrics` counters. -/
def tweetRow (t : Tweet) : Row :=
  [("id", Val.nat t.id), ("author_id", Val.nat t.author_id),
   ("created_at", Val.ts t.created_at), ("text", Val.str t.text),
   ("possibly_sensitive", Val.bool t.possibly_sensitive), ("lang", Val.str t.lang),
   ("retweet_count", Val.nat t.retweet_count), ("reply_count", Val.nat t.reply_count),
   ("like_count", Val.nat t.like_count), ("quote_count", Val.nat t.quote_count),
   ("impression_count", Val.nat t.impression_count)]

/-- `TwitterDataCleaner.extract_tweet_data`: one flat row per tweet record. -/
def extract_tweet_data (raw : RawResponse) : DataFrame :=
  raw.data.map tweetRow

/-- One flattened `user_`-named row of `extract_user_data`'s `users` dict:
every user field keyed `user_<field>`, with `user_public_metrics` popped and
its counters merged back with the same naming. -/
def userRow (u : User) : Row :=
  [("user_id", Val.nat u.id), ("user_username", Val.str u.username),
   ("user_name", Val.str u.name), ("user_location", Val.str u.location),
   ("user_created_at", Val.ts u.created_at), ("user_description", Val.str u.description),
   ("user_profile_image_url", Val.str u.profile_image_url),
   ("user_verified", Val.bool u.verified),
   ("user_followers_count", Val.nat u.followers_count),
   ("user_following_count", Val.nat u.following_count),
   ("user_tweet_count", Val.nat u.tweet_count),
   ("user_listed_count", Val.nat u.listed_count)]

/-- The `users = {user.id: user for user in self.tweets.includes['users']}`
dictionary in `extract_user_data`, queried at a cell value: like a Python
dict comprehension, a later duplicate id overwrites an earlier one. -/
def usersDict (users : List User) (key : Val) : Option Row :=
  ((users.filter (fun u => Val.nat u.id = key)).getLast?).map userRow

/-- `TwitterDataCleaner.extract_user_data` (the author join): for every row
of the tweet DataFrame, look up its `author_id` in the includes dict and
attach all `user_*` columns; the row order of the Python `apply` means the
first row whose author is absent raises `KeyError` (modeled `.keyError`). -/
def extract_user_data (raw : RawResponse) : DataFrame → Except DLError DataFrame
  | [] => .ok []
  | row :: rest =>
    match usersDict raw.includes_users ((row.lookup "author_id").getD Val.null) with
    | Option.none => .error (.keyError ((row.lookup "author_id").getD Val.null))
    | Option.some urow =>
      match extract_user_data raw rest with
      | .error e => .error e
      | .ok rs => .ok ((row ++ urow) :: rs)

/-- The tweet-side column selection of `TwitterDataCleaner.segregate_data`. -/
def tweetCols : List String :=
  ["id", "author_id", "created_at", "text", "possibly_sensitive", "retweet_count",
   "reply_count", "like_count", "quote_count", "impression_count", "lang"]

/-- The user-side column selection of `TwitterDataCleaner.segregate_data`. -/
def userCols : List String :=
  ["user_id", "user_username", "user_name", "user_location", "user_created_at",
   "user_description", "user_profile_image_url", "user_verified",
   "user_followers_count", "user_following_count", "user_tweet_count",
   "user_listed_count"]

/-- `df[[c1, ..., cn]]`: per-row projection onto a fixed column list. -/
def selectCols (cols : List String) (df : DataFrame) : DataFrame :=
  df.map (fun row => cols.map (fun c => (c, (row.lookup c).getD Val.null)))

/-- `TwitterDataCleaner.segregate_data`: projects the enriched DataFrame onto
the tweet columns and the user columns, one output row per input row on each
side (no deduplication of authors). -/
def segregate_data (df : DataFrame) : DataFrame × DataFrame :=
  (selectCols tweetCols df, selectCols userCols df)

/-- The tweet-side rename dictionary of `TwitterDataCleaner.clean_data`.  The
source interpolates a LOCAL variable holding the literal `"tw_"`; the names
below are therefore fixed, not configurable. -/
def renameTweetCol (c : String) : String :=
  if c = "id" then "tw_tweet"
  else if c = "author_id" then "tw_usuario"
  else if c = "created_at" then "tw_fecha"
  else if c = "text" then "tw_texto"
  else if c = "possibly_sensitive" then "tw_sensitivo"
  else if c = "retweet_count" then "tw_retweets"
  else if c = "reply_count" then "tw_replies"
  else if c = "like_count" then "tw_likes"
  else if c = "quote_count" then "tw_quotes"
  else if c = "impression_count" then "tw_impresiones"
  else if c = "lang" then "tw_idioma"
  else c

/-- The user-side rename dictionary of `TwitterDataCleaner.clean_data`, with
the literal `"us_"` hard-coded in the source. -/
def renameUserCol (c : String) : String :=
  if c = "user_id" then "us_usuario"
  else if c = "user_username" then "us_handle"
  else if c = "user_name" then "us_nombre"
  else if c = "user_location" then "us_ubicacion"
  else if c = "user_created_at" then "us_fecha_creacion"
  else if c = "user_description" then "us_descripcion"
  else if c = "user_profile_image_url" then "us_imagen"
  else if c = "user_verified" then "us_verificado"
  else if c = "user_followers_count" then "us_seguidores"
  else if c = "user_following_count" then "us_siguiendo"
  else if c = "user_tweet_count" then "us_tweets"
  else if c = "user_listed_count" then "us_listas"
  else c

/-- `pd.to_datetime(x).dt.date`: truncate a full timestamp to its calendar
date (whole days since the epoch); other values pass through unchanged. -/
def toDate : Val → Val
  | .ts t => .date (t / oneDay)
  | v => v

/-- `DataFrame.rename(columns=...)` applied to one row. -/
def renameRow (f : String → String) (row : Row) : Row :=
  row.map (fun p => (f p.1, p.2))

/-- `DataFrame.assign(c = lambda x: f(x.c))` applied to one row: overwrite the
named column in place. -/
def assignCol (c : String) (f : Val → Val) (row : Row) : Row :=
  row.map (fun p => if p.1 = c then (p.1, f p.2) else p)

/-- `TwitterDataCleaner.clean_data`: rename every tweet column per the fixed
`"tw_"` dictionary and cast `tw_fecha` to calendar date; rename every user
column per the fixed `"us_"` dictionary and cast `us_fecha_creacion` to
calendar date. -/
def clean_data (tweets_df users_df : DataFrame) : DataFrame × DataFrame :=
  (tweets_df.map (fun row => assignCol "tw_fecha" toDate (renameRow renameTweetCol row)),
   users_df.map (fun row => assignCol "us_fecha_creacion" toDate (renameRow renameUserCol row)))

/-- `TwitterDataCleaner.run`: the four normalization stages in order. -/
def TwitterDataCleaner_run (raw : RawResponse) : Except DLError (DataFrame × DataFrame) :=
  match extract_user_data raw (extract_tweet_data raw) with
  | .error e => .error e
  | .ok edf => .ok (clean_data (segregate_data edf).1 (segregate_data edf).2)

/-- The configuration surface of `DownloadTweets.__init__`: the constructor
only stores its parameters, it performs no validation.  The two column-name
parameters (`tweets_prefix` / `users_prefix` in the source) are carried but —
as in the in-repo cleaner — never consumed by the rename step. -/
structure Config where
  candidates : List String
  start_date : Nat
  end_date : Nat
  max_results : Nat
  tweetsPfx : String
  usersPfx : String

/-- The opaque fetch capability (`get_tweets` via `tweepy`): query string
(the candidate; the `-is:retweet -is:reply` exclusions are folded into it),
window start, window end, result cap. -/
abbrev FetchFn := String → Nat → Nat → Nat → Except DLError RawResponse

/-- `DownloadTweets.get_batch`: fetch one (candidate, window) cell, run the
normalizer, then append the unprefixed subject-label column
`tweets['candidato'] = candidate` to every tweet row. -/
def get_batch (fetchF : FetchFn) (cfg : Config) (candidate : String) (w : Nat × Nat) :
    Except DLError (DataFrame × DataFrame) :=
  match fetchF candidate w.1 w.2 cfg.max_results with
  | .error e => .error e
  | .ok raw =>
    match TwitterDataCleaner_run raw with
    | .error e => .error e
    | .ok (tweets, users) =>
      .ok (tweets.map (fun row => row ++ [("candidato", Val.str candidate)]), users)

/-- `pd.concat`: concatenates the frames, but raises
`ValueError("No objects to concatenate")` on an empty list. -/
def pd_concat (dfs : List DataFrame) : Except DLError DataFrame :=
  match dfs with
  | [] => .error .emptyConcat
  | _ => .ok dfs.flatten

/-- The inner `for start_date, end_date in self.dates` loop of
`DownloadTweets.download_tweets` for one candidate.  The first component is
the list of `get_batch` invocations actually made, in order (the failing
invocation included); the second is the accumulated per-window frames or the
first error raised. -/
def innerLoop (fetchF : FetchFn) (cfg : Config) (candidate : String) :
    List (Nat × Nat) → List (String × Nat × Nat) × Except DLError (List DataFrame × List DataFrame)
  | [] => ([], .ok ([], []))
  | w :: ws =>
    match get_batch fetchF cfg candidate w with
    | .error e => ([(candidate, w)], .error e)
    | .ok (t, u) =>
      let (tr, res) := innerLoop fetchF cfg candidate ws
      ((candidate, w) :: tr,
        match res with
        | .error e => .error e
        | .ok (ts, us) => .ok (t :: ts, u :: us))

/-- The outer `for candidate in self.candidates` loop of
`DownloadTweets.download_tweets`, including the per-candidate
`pd.concat(dates_tweets_collector)` / `pd.concat(dates_users_collector)`. -/
def outerLoop (fetchF : FetchFn) (cfg : Config) (dates : List (Nat × Nat)) :
    List String → List (String × Nat × Nat) × Except DLError (List DataFrame × List DataFrame)
  | [] => ([], .ok ([], []))
  | c :: cs =>
    match innerLoop fetchF cfg c dates with
    | (tr, .error e) => (tr, .error e)
    | (tr, .ok (dts, dus)) =>
      match pd_concat dts with
      | .error e => (tr, .error e)
      | .ok tdf =>
        match pd_concat dus with
        | .error e => (tr, .error e)
        | .ok udf =>
          let (tr2, res2) := outerLoop fetchF cfg dates cs
          (tr ++ tr2,
            match res2 with
            | .error e => .error e
            | .ok (ts, us) => .ok (tdf :: ts, udf :: us))

/-- `DownloadTweets.download_tweets`: generate the one-day windows, run the
double loop, and concatenate across candidates.  The first component is the
full ordered `get_batch` call trace; an exception anywhere aborts the whole
operation with no partial result. -/
def download_tweets (fetchF : FetchFn) (cfg : Config) :
    List (String × Nat × Nat) × Except DLError (DataFrame × DataFrame) :=
  let dates := generate_dates oneDay cfg.start_date cfg.end_date
  match outerLoop fetchF cfg dates cfg.candidates with
  | (tr, .error e) => (tr, .error e)
  | (tr, .ok (ts, us)) =>
    (tr,
      match pd_concat ts with
      | .error e => .error e
      | .ok t =>
        match pd_concat us with
        | .error e => .error e
        | .ok u => .ok (t, u))

/-- `main` in `download_tweets.py`: its `try/except` block only logs and
re-raises, so the returned value and the propagated error are exactly those
of `download_tweets`. -/
def main (fetchF : FetchFn) (cfg : Config) :
    List (String × Nat × Nat) × Except DLError (DataFrame × DataFrame) :=
  download_tweets fetchF cfg

/-- The two CSV files of the `__main__` block (`None` = file absent). -/
structure Storage where
  tweetsCsv : Option DataFrame
  usersCsv : Option DataFrame
deriving DecidableEq

/-- `df.to_csv(..., mode='a', ...)`: create-or-append. -/
def toCsvAppend (file : Option DataFrame) (df : DataFrame) : Option DataFrame :=
  some (file.getD [] ++ df)

/-- The `__main__` block of `download_tweets.py`: run `main`, and persist the
two tables only after it returned successfully; a propagated exception leaves
the storage untouched. -/
def mainScript (fetchF : FetchFn) (cfg : Config) (st : Storage) :
    Except DLError (DataFrame × DataFrame) × Storage :=
  match (main fetchF cfg).2 with
  | .error e => (.error e, st)
  | .ok (t, u) =>
    (.ok (t, u),
     { tweetsCsv := toCsvAppend st.tweetsCsv t, usersCsv := toCsvAppend st.usersCsv u })

/-- The tweet table produced by one `get_batch` cell (empty if the call
fails); used to state ordering properties of the concatenated result. -/
def batchTweets (fetchF : FetchFn) (cfg : Config) (c : String) (w : Nat × Nat) : DataFrame :=
  match get_batch fetchF cfg c w with
  | .ok (t, _) => t
  | .error _ => []

/-- The user table produced by one `get_batch` cell (empty if the call
fails). -/
def batchUsers (fetchF : FetchFn) (cfg : Config) (c : String) (w : Nat × Nat) : DataFrame :=
  match get_batch fetchF cfg c w with
  | .ok (_, u) => u
  | .error _ => []

/-- Whether an `Except` result is a success (Python: no exception raised). -/
def exOk {α : Type} : Except DLError α → Bool
  | .ok _ => true
  | .error _ => false

theorem exOk_iff {α : Type} (r : Except DLError α) : exOk r = true ↔ ∃ a, r = .ok a := by
  cases r with
  | error e => simp [exOk]
  | ok a => simp [exOk]

theorem mem_of_getLast?_eq {α : Type} {l : List α} {a : α}
    (h : l.getLast? = some a) : a ∈ l := by
  obtain ⟨hne, ha⟩ := List.mem_getLast?_eq_getLast (Option.mem_def.mpr h)
  rw [ha]
  exact List.getLast_mem hne

theorem tweetRow_author (t : Tweet) :
    ((tweetRow t).lookup "author_id").getD Val.null = Val.nat t.author_id := rfl

theorem usersDict_none (us : List User) (a : Nat)
    (h : ∀ u ∈ us, u.id ≠ a) : usersDict us (Val.nat a) = Option.none := by
  unfold usersDict
  have hfil : us.filter (fun u => Val.nat u.id = Val.nat a) = [] := by
    apply List.filter_eq_nil_iff.mpr
    intro u hu
    simp [h u hu]
  rw [hfil]
  rfl

theorem usersDict_some_mem (us : List User) (a : Nat) (urow : Row)
    (h : usersDict us (Val.nat a) = some urow) : ∃ u ∈ us, u.id = a := by
  unfold usersDict at h
  cases hf : (us.filter (fun u => Val.nat u.id = Val.nat a)).getLast? with
  | none => rw [hf] at h; exact absurd h (by simp)
  | some u0 =>
    have hu0 := List.mem_filter.mp (mem_of_getLast?_eq hf)
    refine ⟨u0, hu0.1, ?_⟩
    have := hu0.2
    simp at this
    exact this

theorem join_missing_author_aux (raw : RawResponse) (ts : List Tweet)
    (h : ∃ t ∈ ts, ∀ u ∈ raw.includes_users, u.id ≠ t.author_id) :
    ∃ aid, extract_user_data raw (ts.map tweetRow) = .error (.keyError aid) := by
  induction ts with
  | nil => simp at h
  | cons t rest ih =>
    obtain ⟨t0, ht0, hno⟩ := h
    simp only [List.map_cons, extract_user_data, tweetRow_author]
    cases hud : usersDict raw.includes_users (Val.nat t.author_id) with
    | none => exact ⟨Val.nat t.author_id, rfl⟩
    | some urow =>
      rcases List.mem_cons.mp ht0 with rfl | hmem
      · obtain ⟨u0, hu0, hid⟩ := usersDict_some_mem _ _ _ hud
        exact absurd hid (hno u0 hu0)
      · obtain ⟨aid, haid⟩ := ih ⟨t0, hmem, hno⟩
        rw [haid]
        exact ⟨aid, rfl⟩

/-- C3: for every raw response containing a post whose `author_id` is absent
from the includes set, the author-join step (`extract_user_data`, run on the
flattened tweet table) fails — the Python `users[x]` lookup raises `KeyError`
(the spec's `MissingAuthorError`); it returns no table at all, so it neither
silently drops the post nor attaches null author fields. -/
theorem extract_user_data_missing_author (raw : RawResponse)
    (h : ∃ t ∈ raw.data, ∀ u ∈ raw.includes_users, u.id ≠ t.author_id) :
    ∃ aid, extract_user_data raw (extract_tweet_data raw) = .error (.keyError aid) :=
  join_missing_author_aux raw raw.data h

theorem extract_user_data_missing_author_witness :
    ∃ aid,
      extract_user_data
        { data := [{ id := 1, author_id := 5, created_at := 0, text := "hola",
                     possibly_sensitive := false, retweet_count := 0, reply_count := 0,
                     like_count := 0, quote_count := 0, impression_count := 0,
                     lang := "es" }],
          includes_users := [{ id := 7, username := "w", name := "w",
                               location := "", created_at := 0, description := "",
                               profile_image_url := "", verified := false,
                               followers_count := 0, following_count := 0,
                               tweet_count := 0, listed_count := 0 }] }
        (extract_tweet_data
          { data := [{ id := 1, author_id := 5, created_at := 0, text := "hola",
                       possibly_sensitive := false, retweet_count := 0, reply_count := 0,
                       like_count := 0, quote_count := 0, impression_count := 0,
                       lang := "es" }],
            includes_users := [{ id := 7, username := "w", name := "w",
                                 location := "", created_at := 0, description := "",
                                 profile_image_url := "", verified := false,
                                 followers_count := 0, following_count := 0,
                                 tweet_count := 0, listed_count := 0 }] })
        = .error (.keyError aid) :=
  extract_user_data_missing_author _ (by decide)

theorem extract_user_data_length (raw : RawResponse) :
    ∀ df edf, extract_user_data raw df = .ok edf → edf.length = df.length := by
  intro df
  induction df with
  | nil =>
    intro edf h
    simp only [extract_user_data] at h
    injection h with h
    simp [← h]
  | cons row rest ih =>
    intro edf h
    simp only [extract_user_data] at h
    cases hud : usersDict raw.includes_users ((row.lookup "author_id").getD Val.null) with
    | none => rw [hud] at h; exact absurd h (by simp)
    | some urow =>
      rw [hud] at h
      cases hrec : extract_user_data raw rest with
      | error e => rw [hrec] at h; exact absurd h (by simp)
      | ok rs =>
        rw [hrec] at h
        injection h with h
        rw [← h]
        simp [ih rs hrec]

/-- C8: for every single fetch call's normalization, the segregation step
emits one (possibly duplicated) author row per post row — authors are NOT
deduplicated within the call — so the per-call tweets table and the per-call
users table returned by `TwitterDataCleaner.run` always have the same number
of rows, namely one per post record of the response. -/
theorem run_one_author_row_per_post (raw : RawResponse)
    (h : exOk (TwitterDataCleaner_run raw) = true) :
    ∃ tdf udf, TwitterDataCleaner_run raw = .ok (tdf, udf) ∧
      tdf.length = udf.length ∧ udf.length = raw.data.length := by
  rw [exOk_iff] at h
  obtain ⟨tu, hok⟩ := h
  unfold TwitterDataCleaner_run at hok ⊢
  cases he : extract_user_data raw (extract_tweet_data raw) with
  | error e => rw [he] at hok; exact absurd hok (by simp)
  | ok edf =>
    have hlen : edf.length = raw.data.length := by
      have := extract_user_data_length raw (extract_tweet_data raw) edf he
      simpa [extract_tweet_data] using this
    refine ⟨_, _, rfl, ?_, ?_⟩ <;>
      simp [clean_data, segregate_data, selectCols, hlen]

/-- A sample tweet record, used by concrete witnesses.  `created_at` is
2023-05-21T14:00:00Z: day 19498 since 1970-01-01, minute 840 of that day. -/
def sampleTweet (aid : Nat) : Tweet :=
  { id := 1, author_id := aid, created_at := 19498 * 1440 + 840, text := "hola",
    possibly_sensitive := false, retweet_count := 2, reply_count := 3,
    like_count := 4, quote_count := 5, impression_count := 6, lang := "es" }

/-- A sample user record, used by concrete witnesses. -/
def sampleUser (uid : Nat) : User :=
  { id := uid, username := "w", name := "W", location := "GT",
    created_at := 19000 * 1440 + 30, description := "d",
    profile_image_url := "p", verified := true, followers_count := 7,
    following_count := 8, tweet_count := 9, listed_count := 10 }

/-- A response with two posts by the same author: the normalizer emits two
(identical) author rows for it, demonstrating the no-deduplication behavior. -/
def sampleRawDup : RawResponse :=
  { data := [sampleTweet 5, sampleTweet 5], includes_users := [sampleUser 5] }

theorem run_one_author_row_per_post_witness :
    ∃ tdf udf, TwitterDataCleaner_run sampleRawDup = .ok (tdf, udf) ∧
      tdf.length = udf.length ∧ udf.length = sampleRawDup.data.length :=
  run_one_author_row_per_post sampleRawDup (by decide)

theorem select_clean_fecha (r : Row) :
    ((assignCol "tw_fecha" toDate (renameRow renameTweetCol
        (tweetCols.map (fun c => (c, (r.lookup c).getD Val.null))))).lookup "tw_fecha")
      = some (toDate ((r.lookup "created_at").getD Val.null)) := rfl

theorem select_clean_fecha_user (r : Row) :
    ((assignCol "us_fecha_creacion" toDate (renameRow renameUserCol
        (userCols.map (fun c => (c, (r.lookup c).getD Val.null))))).lookup "us_fecha_creacion")
      = some (toDate ((r.lookup "user_created_at").getD Val.null)) := rfl

/-- C7: the two creation/posting timestamp columns are typecast to calendar
dates with the time-of-day component truncated: for any enriched row whose
`created_at` is minute `dayT * 1440 + rT` of the epoch (`rT < 1440` minutes
into day `dayT`) the cleaned tweets table carries `tw_fecha = dayT`,
whatever `rT` is, and likewise `user_created_at ↦ us_fecha_creacion` on the
users side.  In particular 2023-05-21T14:00:00Z (day 19498, minute 840) is
cast to the calendar date 2023-05-21 (day 19498), as the witness below
instantiates. -/
theorem clean_data_date_truncation (edf : DataFrame) (row : Row) (hrow : row ∈ edf)
    (dayT rT dayU rU : Nat) (hrT : rT < 1440) (hrU : rU < 1440)
    (ht : row.lookup "created_at" = some (.ts (dayT * 1440 + rT)))
    (hu : row.lookup "user_created_at" = some (.ts (dayU * 1440 + rU))) :
    (∃ row1 ∈ (clean_data (segregate_data edf).1 (segregate_data edf).2).1,
        row1.lookup "tw_fecha" = some (.date dayT)) ∧
    (∃ row2 ∈ (clean_data (segregate_data edf).1 (segregate_data edf).2).2,
        row2.lookup "us_fecha_creacion" = some (.date dayU)) := by
  constructor
  · refine ⟨assignCol "tw_fecha" toDate (renameRow renameTweetCol
        (tweetCols.map (fun c => (c, (row.lookup c).getD Val.null)))), ?_, ?_⟩
    · have hm : (clean_data (segregate_data edf).1 (segregate_data edf).2).1
          = edf.map (fun r => assignCol "tw_fecha" toDate (renameRow renameTweetCol
              (tweetCols.map (fun c => (c, (r.lookup c).getD Val.null))))) := by
        simp [clean_data, segregate_data, selectCols, List.map_map]
      rw [hm]
      exact List.mem_map_of_mem _ hrow
    · rw [select_clean_fecha, ht]
      have hdiv : (dayT * 1440 + rT) / 1440 = dayT := by omega
      simp [toDate, oneDay, hdiv]
  · refine ⟨assignCol "us_fecha_creacion" toDate (renameRow renameUserCol
        (userCols.map (fun c => (c, (row.lookup c).getD Val.null)))), ?_, ?_⟩
    · have hm : (clean_data (segregate_data edf).1 (segregate_data edf).2).2
          = edf.map (fun r => assignCol "us_fecha_creacion" toDate (renameRow renameUserCol
              (userCols.map (fun c => (c, (r.lookup c).getD Val.null))))) := by
        simp [clean_data, segregate_data, selectCols, List.map_map]
      rw [hm]
      exact List.mem_map_of_mem _ hrow
    · rw [select_clean_fecha_user, hu]
      have hdiv : (dayU * 1440 + rU) / 1440 = dayU := by omega
      simp [toDate, oneDay, hdiv]

/-- A minimal enriched row holding the two timestamp columns; `created_at` is
the spec's example 2023-05-21T14:00:00Z. -/
def sampleEnrichedRow : Row :=
  [("created_at", Val.ts (19498 * 1440 + 840)),
   ("user_created_at", Val.ts (19498 * 1440 + 841))]

theorem clean_data_date_truncation_witness :
    (∃ row1 ∈ (clean_data (segregate_data [sampleEnrichedRow]).1
        (segregate_data [sampleEnrichedRow]).2).1,
        row1.lookup "tw_fecha" = some (.date 19498)) ∧
    (∃ row2 ∈ (clean_data (segregate_data [sampleEnrichedRow]).1
        (segregate_data [sampleEnrichedRow]).2).2,
        row2.lookup "us_fecha_creacion" = some (.date 19498)) :=
  clean_data_date_truncation [sampleEnrichedRow] sampleEnrichedRow (by decide)
    19498 840 19498 841 (by decide) (by decide) rfl rfl

/-- The destination column names of the tweet-side rename dictionary in
`clean_data` (the part after the interpolated padding). -/
def tweetDestCols : List String :=
  ["tweet", "usuario", "fecha", "texto", "sensitivo", "retweets", "replies",
   "likes", "quotes", "impresiones", "idioma"]

/-- The destination column names of the user-side rename dictionary. -/
def userDestCols : List String :=
  ["usuario", "handle", "nombre", "ubicacion", "fecha_creacion", "descripcion",
   "imagen", "verificado", "seguidores", "siguiendo", "tweets", "listas"]

/-- Modelled from the spec: the tweet-side rename dictionary as §4.2 words it
(`<tweets_prefix><destination_name>`), parametric in the configurable pfx —
which the in-repo `clean_data` is not; used only to compare `clean_data`
against the spec's parametric reading. -/
def renameTweetColSpec (pfx c : String) : String :=
  if c = "id" then pfx ++ "tweet"
  else if c = "author_id" then pfx ++ "usuario"
  else if c = "created_at" then pfx ++ "fecha"
  else if c = "text" then pfx ++ "texto"
  else if c = "possibly_sensitive" then pfx ++ "sensitivo"
  else if c = "retweet_count" then pfx ++ "retweets"
  else if c = "reply_count" then pfx ++ "replies"
  else if c = "like_count" then pfx ++ "likes"
  else if c = "quote_count" then pfx ++ "quotes"
  else if c = "impression_count" then pfx ++ "impresiones"
  else if c = "lang" then pfx ++ "idioma"
  else c

/-- Modelled from the spec: the user-side rename dictionary, parametric in
the configurable pfx. -/
def renameUserColSpec (pfx c : String) : String :=
  if c = "user_id" then pfx ++ "usuario"
  else if c = "user_username" then pfx ++ "handle"
  else if c = "user_name" then pfx ++ "nombre"
  else if c = "user_location" then pfx ++ "ubicacion"
  else if c = "user_created_at" then pfx ++ "fecha_creacion"
  else if c = "user_description" then pfx ++ "descripcion"
  else if c = "user_profile_image_url" then pfx ++ "imagen"
  else if c = "user_verified" then pfx ++ "verificado"
  else if c = "user_followers_count" then pfx ++ "seguidores"
  else if c = "user_following_count" then pfx ++ "siguiendo"
  else if c = "user_tweet_count" then pfx ++ "tweets"
  else if c = "user_listed_count" then pfx ++ "listas"
  else c

/-- Modelled from the spec: `rename_and_typecast` as §4.2 words it, honouring
the two independently configurable output-column-name parameters. -/
def clean_dataSpec (tweetsPfx usersPfx : String) (tweets_df users_df : DataFrame) :
    DataFrame × DataFrame :=
  (tweets_df.map (fun row =>
      assignCol (tweetsPfx ++ "fecha") toDate (renameRow (renameTweetColSpec tweetsPfx) row)),
   users_df.map (fun row =>
      assignCol (usersPfx ++ "fecha_creacion") toDate (renameRow (renameUserColSpec usersPfx) row)))

theorem assignCol_keys (c : String) (f : Val → Val) (row : Row) :
    (assignCol c f row).map Prod.fst = row.map Prod.fst := by
  unfold assignCol
  rw [List.map_map]
  apply List.map_congr_left
  intro p hp
  by_cases h : p.1 = c <;> simp [h]

theorem renameRow_keys (f : String → String) (row : Row) :
    (renameRow f row).map Prod.fst = (row.map Prod.fst).map f := by
  unfold renameRow
  rw [List.map_map, List.map_map]
  rfl

theorem cleanT_keys (row : Row) (h : row.map Prod.fst = tweetCols) :
    (assignCol "tw_fecha" toDate (renameRow renameTweetCol row)).map Prod.fst
      = tweetDestCols.map (fun d => "tw_" ++ d) := by
  rw [assignCol_keys, renameRow_keys, h]
  decide

theorem cleanU_keys (row : Row) (h : row.map Prod.fst = userCols) :
    (assignCol "us_fecha_creacion" toDate (renameRow renameUserCol row)).map Prod.fst
      = userDestCols.map (fun d => "us_" ++ d) := by
  rw [assignCol_keys, renameRow_keys, h]
  decide

/-- C5 counterexample: `clean_data` does NOT honour a configured pfx choice.
On a well-formed one-row input and the choice `tweets_prefix = "x_"`, the
output column names are the hard-coded `tw_*` names, not the `x_*` names the
claim requires for every configured choice. -/
theorem clean_data_pfx_cex :
    ¬ (((clean_data [tweetCols.map (fun c => (c, Val.null))]
          [userCols.map (fun c => (c, Val.null))]).1.map (fun r => r.map Prod.fst))
        = [tweetDestCols.map (fun d => "x_" ++ d)]) := by decide

/-- C5 amended: the rename step is schema-total — on rows with the segregated
schema, every column is renamed and none of the original names survives — but
with the prefixes `"tw_"` / `"us_"` HARD-CODED inside `clean_data`; the two
configurable parameters of the surrounding configuration surface are not
consumed by this step. -/
theorem clean_data_schema_total (tweets_df users_df : DataFrame)
    (ht : ∀ row ∈ tweets_df, row.map Prod.fst = tweetCols)
    (hu : ∀ row ∈ users_df, row.map Prod.fst = userCols) :
    (∀ row ∈ (clean_data tweets_df users_df).1,
        row.map Prod.fst = tweetDestCols.map (fun d => "tw_" ++ d) ∧
        ∀ c ∈ tweetCols, c ∉ row.map Prod.fst) ∧
    (∀ row ∈ (clean_data tweets_df users_df).2,
        row.map Prod.fst = userDestCols.map (fun d => "us_" ++ d) ∧
        ∀ c ∈ userCols, c ∉ row.map Prod.fst) := by
  constructor
  · intro row hrow
    simp only [clean_data, List.mem_map] at hrow
    obtain ⟨r0, hr0, rfl⟩ := hrow
    have hk := cleanT_keys r0 (ht r0 hr0)
    refine ⟨hk, ?_⟩
    rw [hk]
    decide
  · intro row hrow
    simp only [clean_data, List.mem_map] at hrow
    obtain ⟨r0, hr0, rfl⟩ := hrow
    have hk := cleanU_keys r0 (hu r0 hr0)
    refine ⟨hk, ?_⟩
    rw [hk]
    decide

theorem clean_data_schema_total_witness :
    (∀ row ∈ (clean_data [tweetCols.map (fun c => (c, Val.null))]
        [userCols.map (fun c => (c, Val.null))]).1,
        row.map Prod.fst = tweetDestCols.map (fun d => "tw_" ++ d) ∧
        ∀ c ∈ tweetCols, c ∉ row.map Prod.fst) ∧
    (∀ row ∈ (clean_data [tweetCols.map (fun c => (c, Val.null))]
        [userCols.map (fun c => (c, Val.null))]).2,
        row.map Prod.fst = userDestCols.map (fun d => "us_" ++ d) ∧
        ∀ c ∈ userCols, c ∉ row.map Prod.fst) :=
  clean_data_schema_total [tweetCols.map (fun c => (c, Val.null))]
    [userCols.map (fun c => (c, Val.null))] (by decide) (by decide)

theorem selectCols_row_keys (cols : List String) (r : Row) :
    ((cols.map (fun c => (c, (r.lookup c).getD Val.null))).map Prod.fst) = cols := by
  induction cols with
  | nil => rfl
  | cons c cs ih => simp [ih]

theorem run_keys (raw : RawResponse) (tdf udf : DataFrame)
    (h : TwitterDataCleaner_run raw = .ok (tdf, udf)) :
    (∀ row ∈ tdf, row.map Prod.fst = tweetDestCols.map (fun d => "tw_" ++ d)) ∧
    (∀ row ∈ udf, row.map Prod.fst = userDestCols.map (fun d => "us_" ++ d)) := by
  unfold TwitterDataCleaner_run at h
  cases he : extract_user_data raw (extract_tweet_data raw) with
  | error e => rw [he] at h; exact absurd h (by simp)
  | ok edf =>
    rw [he] at h
    injection h with h
    rw [Prod.ext_iff] at h
    dsimp only at h
    rw [← h.1, ← h.2]
    constructor
    · intro row hrow
      simp only [clean_data, segregate_data, List.mem_map] at hrow
      obtain ⟨r0, hr0, rfl⟩ := hrow
      simp only [selectCols, List.mem_map] at hr0
      obtain ⟨r1, hr1, rfl⟩ := hr0
      exact cleanT_keys _ (selectCols_row_keys tweetCols r1)
    · intro row hrow
      simp only [clean_data, segregate_data, List.mem_map] at hrow
      obtain ⟨r0, hr0, rfl⟩ := hrow
      simp only [selectCols, List.mem_map] at hr0
      obtain ⟨r1, hr1, rfl⟩ := hr0
      exact cleanU_keys _ (selectCols_row_keys userCols r1)

theorem lookup_append_right (k : String) (l1 l2 : Row)
    (h : k ∉ l1.map Prod.fst) : (l1 ++ l2).lookup k = l2.lookup k := by
  induction l1 with
  | nil => rfl
  | cons p l ih =>
    obtain ⟨k1, v1⟩ := p
    simp only [List.map_cons, List.mem_cons, not_or] at h
    have hne : (k == k1) = false := by
      simp only [beq_eq_false_iff_ne, ne_eq]
      exact h.1
    simp [List.lookup, hne, ih h.2]

theorem get_batch_ok (fetchF : FetchFn) (cfg : Config) (candidate : String)
    (w : Nat × Nat) (t u : DataFrame)
    (h : get_batch fetchF cfg candidate w = .ok (t, u)) :
    ∃ raw T U, fetchF candidate w.1 w.2 cfg.max_results = .ok raw ∧
      TwitterDataCleaner_run raw = .ok (T, U) ∧
      t = T.map (fun row => row ++ [("candidato", Val.str candidate)]) ∧ u = U := by
  unfold get_batch at h
  split at h
  next e heq => exact absurd h (by simp)
  next raw heq =>
    split at h
    next e heq2 => exact absurd h (by simp)
    next T U heq2 =>
      injection h with h
      rw [Prod.mk.injEq] at h
      exact ⟨raw, T, U, heq, heq2, h.1.symm, h.2.symm⟩

/-- C10: for every subject and every configuration (in particular every
configured pfx choice carried in `cfg`), `get_batch` attaches the subject
label AFTER renaming, as a column literally named `candidato` with no
padding applied; the batch tweets table's columns are therefore exactly the
eleven `tw_*` renamed post columns plus the unprefixed `candidato`, and the
batch users table never carries a subject column. -/
theorem get_batch_candidato (fetchF : FetchFn) (cfg : Config) (candidate : String)
    (w : Nat × Nat) (h : exOk (get_batch fetchF cfg candidate w) = true) :
    ∃ t u, get_batch fetchF cfg candidate w = .ok (t, u) ∧
      (∀ row ∈ t, row.map Prod.fst
          = tweetDestCols.map (fun d => "tw_" ++ d) ++ ["candidato"] ∧
        row.lookup "candidato" = some (Val.str candidate)) ∧
      (∀ row ∈ u, row.map Prod.fst = userDestCols.map (fun d => "us_" ++ d) ∧
        "candidato" ∉ row.map Prod.fst) := by
  rw [exOk_iff] at h
  obtain ⟨⟨t, u⟩, hok⟩ := h
  obtain ⟨raw, T, U, hf, hr, ht', hu'⟩ := get_batch_ok fetchF cfg candidate w t u hok
  subst ht'
  subst hu'
  obtain ⟨hTk, hUk⟩ := run_keys raw T u hr
  refine ⟨_, _, hok, ?_, ?_⟩
  · intro row hrow
    rw [List.mem_map] at hrow
    obtain ⟨r0, hr0, rfl⟩ := hrow
    have hk := hTk r0 hr0
    have hnc : "candidato" ∉ r0.map Prod.fst := by
      rw [hk]; decide
    constructor
    · rw [List.map_append, hk]
      rfl
    · rw [lookup_append_right _ _ _ hnc]
      rfl
  · intro row hrow
    have hk := hUk row hrow
    refine ⟨hk, ?_⟩
    rw [hk]
    decide

/-- A response in which the single post's author is resolvable. -/
def sampleRawOk : RawResponse :=
  { data := [sampleTweet 5], includes_users := [sampleUser 5] }

/-- A fetch capability that always succeeds with `sampleRawOk`. -/
def sampleFetch : FetchFn := fun _ _ _ _ => .ok sampleRawOk

/-- The spec's end-to-end scenario configuration: two subjects, two one-day
windows (minutes 0 to 2880), result cap 10, the repo's two pfx values. -/
def sampleConfig : Config :=
  { candidates := ["alice", "bob"], start_date := 0, end_date := 2 * oneDay,
    max_results := 10, tweetsPfx := "tw_", usersPfx := "us_" }

theorem get_batch_candidato_witness :
    ∃ t u, get_batch sampleFetch sampleConfig "alice" (0, oneDay) = .ok (t, u) ∧
      (∀ row ∈ t, row.map Prod.fst
          = tweetDestCols.map (fun d => "tw_" ++ d) ++ ["candidato"] ∧
        row.lookup "candidato" = some (Val.str "alice")) ∧
      (∀ row ∈ u, row.map Prod.fst = userDestCols.map (fun d => "us_" ++ d) ∧
        "candidato" ∉ row.map Prod.fst) :=
  get_batch_candidato sampleFetch sampleConfig "alice" (0, oneDay) (by decide)

theorem innerLoop_ok (fetchF : FetchFn) (cfg : Config) (c : String) :
    ∀ ws : List (Nat × Nat), (∀ w ∈ ws, exOk (get_batch fetchF cfg c w) = true) →
      innerLoop fetchF cfg c ws
        = (ws.map (fun w => (c, w)),
           .ok (ws.map (batchTweets fetchF cfg c), ws.map (batchUsers fetchF cfg c))) := by
  intro ws
  induction ws with
  | nil => intro h; rfl
  | cons w ws ih =>
    intro h
    obtain ⟨⟨t, u⟩, htu⟩ :=
      (exOk_iff _).mp (h w (List.mem_cons_self w ws))
    simp only [innerLoop]
    rw [htu, ih (fun w' hw' => h w' (List.mem_cons_of_mem _ hw'))]
    simp [batchTweets, batchUsers, htu]

theorem pd_concat_ok (dfs : List DataFrame) (hne : dfs ≠ []) :
    pd_concat dfs = .ok dfs.flatten := by
  cases dfs with
  | nil => exact absurd rfl hne
  | cons d ds => rfl

theorem outerLoop_ok (fetchF : FetchFn) (cfg : Config) (dates : List (Nat × Nat))
    (hne : dates ≠ []) :
    ∀ cs : List String,
      (∀ c ∈ cs, ∀ w ∈ dates, exOk (get_batch fetchF cfg c w) = true) →
      outerLoop fetchF cfg dates cs
        = (cs.flatMap (fun c => dates.map (fun w => (c, w))),
           .ok (cs.map (fun c => (dates.map (batchTweets fetchF cfg c)).flatten),
                cs.map (fun c => (dates.map (batchUsers fetchF cfg c)).flatten))) := by
  intro cs
  induction cs with
  | nil => intro h; rfl
  | cons c cs ih =>
    intro h
    have hinner := innerLoop_ok fetchF cfg c dates
      (fun w hw => h c (List.mem_cons_self c cs) w hw)
    have hih := ih (fun c' hc' w hw => h c' (List.mem_cons_of_mem _ hc') w hw)
    have h1 := pd_concat_ok (dates.map (batchTweets fetchF cfg c)) (by simpa using hne)
    have h2 := pd_concat_ok (dates.map (batchUsers fetchF cfg c)) (by simpa using hne)
    simp only [outerLoop, hinner, h1, h2, hih]
    simp

theorem batchTweets_candidato (fetchF : FetchFn) (cfg : Config) (c : String)
    (w : Nat × Nat) (h : exOk (get_batch fetchF cfg c w) = true) :
    ∀ row ∈ batchTweets fetchF cfg c w, row.lookup "candidato" = some (Val.str c) := by
  rw [exOk_iff] at h
  obtain ⟨⟨t, u⟩, hok⟩ := h
  obtain ⟨raw, T, U, hf, hr, ht', hu'⟩ := get_batch_ok fetchF cfg c w t u hok
  intro row hrow
  simp only [batchTweets, hok] at hrow
  subst ht'
  rw [List.mem_map] at hrow
  obtain ⟨r0, hr0, rfl⟩ := hrow
  have hk := (run_keys raw T U hr).1 r0 hr0
  have hnc : "candidato" ∉ r0.map Prod.fst := by rw [hk]; decide
  rw [lookup_append_right _ _ _ hnc]
  rfl

/-- C2: when every cell succeeds, `download_tweets` invokes `get_batch`
exactly once per (candidate, window) pair — the recorded call trace is
literally the candidate-major, window-minor product list — the resulting
tweets table is the concatenation of the per-cell tables in exactly that
order (likewise the users table), and every tweet row of a cell carries the
`candidato` label of the candidate it was queried for.  The witness below
instantiates the spec's scenario: 2 subjects × 2 one-day windows = 4 calls
in order [(alice, day1), (alice, day2), (bob, day1), (bob, day2)]. -/
theorem download_tweets_order (fetchF : FetchFn) (cfg : Config)
    (hc : cfg.candidates ≠ [])
    (hw : generate_dates oneDay cfg.start_date cfg.end_date ≠ [])
    (hok : ∀ c ∈ cfg.candidates,
      ∀ w ∈ generate_dates oneDay cfg.start_date cfg.end_date,
        exOk (get_batch fetchF cfg c w) = true) :
    (download_tweets fetchF cfg).1
      = cfg.candidates.flatMap (fun c =>
          (generate_dates oneDay cfg.start_date cfg.end_date).map (fun w => (c, w))) ∧
    (download_tweets fetchF cfg).2
      = .ok (cfg.candidates.flatMap (fun c =>
               (generate_dates oneDay cfg.start_date cfg.end_date).flatMap
                 (batchTweets fetchF cfg c)),
             cfg.candidates.flatMap (fun c =>
               (generate_dates oneDay cfg.start_date cfg.end_date).flatMap
                 (batchUsers fetchF cfg c))) ∧
    (∀ c ∈ cfg.candidates,
      ∀ w ∈ generate_dates oneDay cfg.start_date cfg.end_date,
        ∀ row ∈ batchTweets fetchF cfg c w,
          row.lookup "candidato" = some (Val.str c)) := by
  have houter := outerLoop_ok fetchF cfg
    (generate_dates oneDay cfg.start_date cfg.end_date) hw cfg.candidates hok
  have h1 := pd_concat_ok (cfg.candidates.map (fun c =>
      ((generate_dates oneDay cfg.start_date cfg.end_date).map
        (batchTweets fetchF cfg c)).flatten)) (by simpa using hc)
  have h2 := pd_concat_ok (cfg.candidates.map (fun c =>
      ((generate_dates oneDay cfg.start_date cfg.end_date).map
        (batchUsers fetchF cfg c)).flatten)) (by simpa using hc)
  refine ⟨?_, ?_, ?_⟩
  · simp only [download_tweets, houter]
  · simp only [download_tweets, houter, h1, h2]
    simp [List.flatMap]
  · intro c hc' w hw' row hrow
    exact batchTweets_candidato fetchF cfg c w (hok c hc' w hw') row hrow

theorem download_tweets_order_witness :
    (download_tweets sampleFetch sampleConfig).1
      = sampleConfig.candidates.flatMap (fun c =>
          (generate_dates oneDay sampleConfig.start_date sampleConfig.end_date).map
            (fun w => (c, w))) ∧
    (download_tweets sampleFetch sampleConfig).2
      = .ok (sampleConfig.candidates.flatMap (fun c =>
               (generate_dates oneDay sampleConfig.start_date sampleConfig.end_date).flatMap
                 (batchTweets sampleFetch sampleConfig c)),
             sampleConfig.candidates.flatMap (fun c =>
               (generate_dates oneDay sampleConfig.start_date sampleConfig.end_date).flatMap
                 (batchUsers sampleFetch sampleConfig c))) ∧
    (∀ c ∈ sampleConfig.candidates,
      ∀ w ∈ generate_dates oneDay sampleConfig.start_date sampleConfig.end_date,
        ∀ row ∈ batchTweets sampleFetch sampleConfig c w,
          row.lookup "candidato" = some (Val.str c)) :=
  download_tweets_order sampleFetch sampleConfig (by decide) (by decide) (by decide)

theorem innerLoop_err (fetchF : FetchFn) (cfg : Config) (c : String) (e : DLError) :
    ∀ dpre (w : Nat × Nat) drest,
      (∀ w' ∈ dpre, exOk (get_batch fetchF cfg c w') = true) →
      get_batch fetchF cfg c w = .error e →
      (innerLoop fetchF cfg c (dpre ++ w :: drest)).2 = .error e := by
  intro dpre
  induction dpre with
  | nil =>
    intro w drest hpre hfail
    simp [innerLoop, hfail]
  | cons w0 dpre ih =>
    intro w drest hpre hfail
    obtain ⟨⟨t, u⟩, ht⟩ :=
      (exOk_iff _).mp (hpre w0 (List.mem_cons_self w0 dpre))
    have hrec := ih w drest (fun w' hw' => hpre w' (List.mem_cons_of_mem _ hw')) hfail
    rcases hil : innerLoop fetchF cfg c (dpre ++ w :: drest) with ⟨tr, res⟩
    rw [hil] at hrec
    simp only at hrec
    simp only [List.cons_append, innerLoop, ht]
    simp only [List.append_eq]
    rw [hil]
    simp [hrec]

theorem outerLoop_err (fetchF : FetchFn) (cfg : Config) (dates : List (Nat × Nat))
    (e : DLError) (c : String) (dpre : List (Nat × Nat)) (w : Nat × Nat)
    (drest : List (Nat × Nat))
    (hdates : dates = dpre ++ w :: drest)
    (hdpre : ∀ w' ∈ dpre, exOk (get_batch fetchF cfg c w') = true)
    (hfail : get_batch fetchF cfg c w = .error e) :
    ∀ cs1 cs2,
      (∀ c' ∈ cs1, ∀ w' ∈ dates, exOk (get_batch fetchF cfg c' w') = true) →
      (outerLoop fetchF cfg dates (cs1 ++ c :: cs2)).2 = .error e := by
  have hne : dates ≠ [] := by rw [hdates]; simp
  intro cs1
  induction cs1 with
  | nil =>
    intro cs2 hcs1
    have hinner : (innerLoop fetchF cfg c dates).2 = .error e := by
      rw [hdates]
      exact innerLoop_err fetchF cfg c e dpre w drest hdpre hfail
    rcases hil : innerLoop fetchF cfg c dates with ⟨tr, res⟩
    rw [hil] at hinner
    simp only at hinner
    subst hinner
    simp [outerLoop, hil]
  | cons c0 cs1 ih =>
    intro cs2 hcs1
    have hinner := innerLoop_ok fetchF cfg c0 dates
      (fun w' hw' => hcs1 c0 (List.mem_cons_self c0 cs1) w' hw')
    have h1 := pd_concat_ok (dates.map (batchTweets fetchF cfg c0)) (by simpa using hne)
    have h2 := pd_concat_ok (dates.map (batchUsers fetchF cfg c0)) (by simpa using hne)
    have hrec := ih cs2 (fun c' hc' w' hw' => hcs1 c' (List.mem_cons_of_mem _ hc') w' hw')
    rcases hout : outerLoop fetchF cfg dates (cs1 ++ c :: cs2) with ⟨tr2, res2⟩
    rw [hout] at hrec
    simp only at hrec
    subst hrec
    simp only [List.cons_append, outerLoop, hinner, h1, h2]
    simp only [List.append_eq]
    rw [hout]

/-- C6: if any `get_batch` cell raises (here: the cell `(c, w)`, all cells
before it in the candidate-major, window-minor order having succeeded), then
`download_tweets` propagates exactly that error and returns no tables, `main`
only log-and-reraises it, and the `__main__` persistence step writes nothing:
the storage is returned untouched. -/
theorem download_tweets_aborts (fetchF : FetchFn) (cfg : Config) (e : DLError)
    (cs1 : List String) (c : String) (cs2 : List String)
    (dpre : List (Nat × Nat)) (w : Nat × Nat) (drest : List (Nat × Nat))
    (hcand : cfg.candidates = cs1 ++ c :: cs2)
    (hdates : generate_dates oneDay cfg.start_date cfg.end_date = dpre ++ w :: drest)
    (hcs1 : ∀ c' ∈ cs1, ∀ w' ∈ generate_dates oneDay cfg.start_date cfg.end_date,
        exOk (get_batch fetchF cfg c' w') = true)
    (hdpre : ∀ w' ∈ dpre, exOk (get_batch fetchF cfg c w') = true)
    (hfail : get_batch fetchF cfg c w = .error e) :
    (download_tweets fetchF cfg).2 = .error e ∧
    (main fetchF cfg).2 = .error e ∧
    ∀ st : Storage, mainScript fetchF cfg st = (.error e, st) := by
  have houter : (outerLoop fetchF cfg
      (generate_dates oneDay cfg.start_date cfg.end_date) cfg.candidates).2 = .error e := by
    rw [hcand]
    exact outerLoop_err fetchF cfg _ e c dpre w drest hdates hdpre hfail cs1 cs2 hcs1
  have hdl : (download_tweets fetchF cfg).2 = .error e := by
    rcases hout : outerLoop fetchF cfg
        (generate_dates oneDay cfg.start_date cfg.end_date) cfg.candidates with ⟨tr, res⟩
    rw [hout] at houter
    simp only at houter
    subst houter
    simp [download_tweets, hout]
  refine ⟨hdl, hdl, ?_⟩
  intro st
  simp [mainScript, main, hdl]

/-- A fetch capability failing exactly on the cell (bob, first window) — the
3rd call of the spec's end-to-end scenario — and succeeding elsewhere. -/
def sampleFetchFail : FetchFn := fun q s _ _ =>
  if q = "bob" ∧ s = 0 then .error (.fetchError "boom") else .ok sampleRawOk

theorem download_tweets_aborts_witness :
    (download_tweets sampleFetchFail sampleConfig).2 = .error (.fetchError "boom") ∧
    (main sampleFetchFail sampleConfig).2 = .error (.fetchError "boom") ∧
    ∀ st : Storage,
      mainScript sampleFetchFail sampleConfig st = (.error (.fetchError "boom"), st) :=
  download_tweets_aborts sampleFetchFail sampleConfig (.fetchError "boom")
    ["alice"] "bob" [] [] (0, oneDay) [(oneDay, 2 * oneDay)]
    (by decide) (by decide) (by decide) (by decide) rfl

theorem generate_dates_nil (delta s e : Nat) (h : e ≤ s) :
    generate_dates delta s e = [] := by
  unfold generate_dates
  rw [Nat.sub_eq_zero_of_le h]
  rfl

/-- C9: when the collection operation is configured with invalid window
bounds (`global_start` not strictly before `global_end`) or an empty
candidate list, it fails.  `__init__` performs no validation; instead the
accumulation loop reaches `pd.concat` on an empty collector list, raising
`ValueError("No objects to concatenate")` — the concrete failure the spec's
`ConfigError` names for exactly these two conditions — so no tables are
returned and nothing is persisted. -/
theorem download_tweets_invalid_config (fetchF : FetchFn) (cfg : Config)
    (h : cfg.end_date ≤ cfg.start_date ∨ cfg.candidates = []) :
    (download_tweets fetchF cfg).2 = .error .emptyConcat ∧
    ∀ st : Storage, mainScript fetchF cfg st = (.error .emptyConcat, st) := by
  have hdl : (download_tweets fetchF cfg).2 = .error .emptyConcat := by
    rcases h with hle | hcand
    · have hdates : generate_dates oneDay cfg.start_date cfg.end_date = [] :=
        generate_dates_nil oneDay cfg.start_date cfg.end_date hle
      cases hc : cfg.candidates with
      | nil => simp [download_tweets, hdates, hc, outerLoop, pd_concat]
      | cons c cs =>
        simp [download_tweets, hdates, hc, outerLoop, innerLoop, pd_concat]
    · simp [download_tweets, hcand, outerLoop, pd_concat]
  refine ⟨hdl, ?_⟩
  intro st
  simp [mainScript, main, hdl]

/-- A configuration whose bounds are invalid: `start_date` is not strictly
before `end_date`. -/
def badConfig : Config :=
  { candidates := ["alice"], start_date := 5, end_date := 3,
    max_results := 10, tweetsPfx := "tw_", usersPfx := "us_" }

theorem download_tweets_invalid_config_witness :
    (download_tweets sampleFetch badConfig).2 = .error .emptyConcat ∧
    ∀ st : Storage, mainScript sampleFetch badConfig st = (.error .emptyConcat, st) :=
  download_tweets_invalid_config sampleFetch badConfig (Or.inl (by decide))
